import Mathlib

/-!
Shallow embedding of the snowman ray tracer (`src/main.cpp`).

Floating-point arithmetic is modelled by exact real arithmetic (`ℝ`);
`sqrtf`, `atan2`, `acos`, `powf` become `Real.sqrt`, a piecewise `atan2`,
`Real.arccos` and `Real.rpow`.  The per-pixel exposure/quantization stage of
`render` uses only field and order operations, so it is embedded over `ℚ`
to keep it executable.  The vector type `Vec3f` comes from `geometry.h`,
which is not part of the sources; its operations are modelled from the
spec's data-model section (componentwise arithmetic, dot product, Euclidean
norm, normalization).
-/

namespace Snowman

/-- Modelled from the spec: `Vec3f` from `geometry.h` (absent from `src/`),
three real components supporting componentwise arithmetic. -/
structure Vec3f where
  x : ℝ
  y : ℝ
  z : ℝ

namespace Vec3f

def add (a b : Vec3f) : Vec3f := ⟨a.x + b.x, a.y + b.y, a.z + b.z⟩

def sub (a b : Vec3f) : Vec3f := ⟨a.x - b.x, a.y - b.y, a.z - b.z⟩

def neg (a : Vec3f) : Vec3f := ⟨-a.x, -a.y, -a.z⟩

/-- Componentwise scaling, `Vec3f * float`, as used throughout `main.cpp`. -/
def scale (a : Vec3f) (s : ℝ) : Vec3f := ⟨a.x * s, a.y * s, a.z * s⟩

instance : Add Vec3f := ⟨add⟩

instance : Sub Vec3f := ⟨sub⟩

instance : Neg Vec3f := ⟨neg⟩

instance : HMul Vec3f ℝ Vec3f := ⟨scale⟩

instance : Inhabited Vec3f := ⟨⟨0, 0, 0⟩⟩

/-- Modelled from the spec: `operator*(Vec3f, Vec3f)` of `geometry.h`, the
dot product. -/
def dot (a b : Vec3f) : ℝ := a.x * b.x + a.y * b.y + a.z * b.z

/-- Modelled from the spec: Euclidean norm of `geometry.h`. -/
noncomputable def norm (a : Vec3f) : ℝ := Real.sqrt (dot a a)

/-- Modelled from the spec: `normalize` of `geometry.h`, the unit-length
variant `v * (1/|v|)`. -/
noncomputable def normalize (a : Vec3f) : Vec3f := a * (1 / norm a)

@[simp] theorem add_x (a b : Vec3f) : (a + b).x = a.x + b.x := rfl
@[simp] theorem add_y (a b : Vec3f) : (a + b).y = a.y + b.y := rfl
@[simp] theorem add_z (a b : Vec3f) : (a + b).z = a.z + b.z := rfl
@[simp] theorem sub_x (a b : Vec3f) : (a - b).x = a.x - b.x := rfl
@[simp] theorem sub_y (a b : Vec3f) : (a - b).y = a.y - b.y := rfl
@[simp] theorem sub_z (a b : Vec3f) : (a - b).z = a.z - b.z := rfl
@[simp] theorem neg_x (a : Vec3f) : (-a).x = -a.x := rfl
@[simp] theorem neg_y (a : Vec3f) : (-a).y = -a.y := rfl
@[simp] theorem neg_z (a : Vec3f) : (-a).z = -a.z := rfl
@[simp] theorem scale_x (a : Vec3f) (s : ℝ) : (a * s).x = a.x * s := rfl
@[simp] theorem scale_y (a : Vec3f) (s : ℝ) : (a * s).y = a.y * s := rfl
@[simp] theorem scale_z (a : Vec3f) (s : ℝ) : (a * s).z = a.z * s := rfl
@[simp] theorem mk_x (u v w : ℝ) : (Vec3f.mk u v w).x = u := rfl
@[simp] theorem mk_y (u v w : ℝ) : (Vec3f.mk u v w).y = v := rfl
@[simp] theorem mk_z (u v w : ℝ) : (Vec3f.mk u v w).z = w := rfl

theorem ext_iff (a b : Vec3f) : a = b ↔ a.x = b.x ∧ a.y = b.y ∧ a.z = b.z := by
  constructor
  · rintro rfl; exact ⟨rfl, rfl, rfl⟩
  · rcases a with ⟨ax, ay, az⟩
    rcases b with ⟨bx, by_, bz⟩
    rintro ⟨h1, h2, h3⟩
    simp_all

end Vec3f

open Vec3f (dot norm normalize)

/-- Four shading weights, `Vec4f` albedo: diffuse, specular, reflective,
refractive. -/
structure Vec4f where
  e0 : ℝ
  e1 : ℝ
  e2 : ℝ
  e3 : ℝ

/-- The `struct Material` of `main.cpp`. -/
structure Material where
  refractive_index : ℝ
  albedo : Vec4f
  diffuse_color : Vec3f
  specular_exponent : ℝ

/-- The `Material()` default constructor: refractive index 1, albedo (1,0,0,0),
zero diffuse color and specular exponent. -/
def default_material : Material := ⟨1, ⟨1, 0, 0, 0⟩, ⟨0, 0, 0⟩, 0⟩

/-- The `struct Sphere` of `main.cpp`. -/
structure Sphere where
  center : Vec3f
  radius : ℝ
  material : Material

/-- The `struct Light` of `main.cpp`. -/
structure Light where
  position : Vec3f
  intensity : ℝ

/-- The value `std::numeric_limits<float>::max()`, the largest finite single-precision
value `(2 - 2^-23) * 2^127`. -/
noncomputable def FLT_MAX : ℝ := 2 ^ 128 - 2 ^ 104

/-- Function `Sphere::ray_intersect` (main.cpp lines 51-62).  Returns `some t0` and
the hit distance exactly when the C++ function returns `true` and writes
`t0` into its out-parameter. -/
noncomputable def Sphere.ray_intersect (s : Sphere) (orig dir : Vec3f) : Option ℝ :=
  let L := s.center - orig
  let tca := dot L dir
  let d2 := dot L L - tca * tca
  if s.radius * s.radius < d2 then none
  else
    let thc := Real.sqrt (s.radius * s.radius - d2)
    let t0 := tca - thc
    let t1 := tca + thc
    let t0' := if t0 < 0 then t1 else t0
    if t0' < 0 then none else some t0'

/-- Function `reflect` (main.cpp line 65): `I - N * 2 * (I*N)`. -/
def reflect (I N : Vec3f) : Vec3f := I - N * (2 : ℝ) * (dot I N)

/-- Body of `refract` (main.cpp lines 69-77) after the inside-the-object
flip has been resolved: clamp the cosine, form the index ratio `eta`, and
either return the fixed vector `(1,0,0)` on a negative discriminant (total
internal reflection) or Snell's refracted direction. -/
noncomputable def refract_core (I N : Vec3f) (eta_t eta_i : ℝ) : Vec3f :=
  let cosi := -(max (-1) (min 1 (dot I N)))
  let eta := eta_i / eta_t
  let k := 1 - eta * eta * (1 - cosi * cosi)
  if k < 0 then ⟨1, 0, 0⟩ else I * eta + N * (eta * cosi - Real.sqrt k)

/-- Function `refract` (main.cpp lines 69-77).  The C++ function calls itself once
with `-N` and swapped indices when the ray comes from inside the object
(`cosi < 0`); after that flip the cosine is nonnegative, so the recursion
never goes deeper and it is unfolded here into a single dispatch. -/
noncomputable def refract (I N : Vec3f) (eta_t : ℝ) (eta_i : ℝ := 1) : Vec3f :=
  let cosi := -(max (-1) (min 1 (dot I N)))
  if cosi < 0 then refract_core I (-N) eta_i eta_t else refract_core I N eta_t eta_i

/-- The running state of `scene_intersect`'s nearest-hit scan: the current
best distance together with the `hit`, `N` and `material` out-parameters. -/
structure TraceState where
  dist : ℝ
  hit : Vec3f
  normal : Vec3f
  material : Material

/-- One iteration of the sphere loop of `scene_intersect`
(main.cpp lines 81-89). -/
noncomputable def sphere_step (orig dir : Vec3f) (acc : TraceState) (s : Sphere) : TraceState :=
  match Sphere.ray_intersect s orig dir with
  | some t =>
      if t < acc.dist then
        ⟨t, orig + dir * t, normalize ((orig + dir * t) - s.center), s.material⟩
      else acc
  | none => acc

/-- The whole sphere loop of `scene_intersect` (main.cpp lines 81-89). -/
noncomputable def sphere_fold (orig dir : Vec3f) (spheres : List Sphere) (acc : TraceState) :
    TraceState :=
  spheres.foldl (sphere_step orig dir) acc

/-- Function `atan2` of `<cmath>`, modelled by the standard piecewise arctangent
(signed-zero distinctions are not representable over `ℝ`). -/
noncomputable def atan2 (y x : ℝ) : ℝ :=
  if 0 < x then Real.arctan (y / x)
  else if x < 0 then
    (if 0 ≤ y then Real.arctan (y / x) + Real.pi else Real.arctan (y / x) - Real.pi)
  else
    (if 0 < y then Real.pi / 2 else if y < 0 then -(Real.pi / 2) else 0)

/-- Conversion `static_cast<int>` on a float: truncation toward zero. -/
noncomputable def cpp_to_int (x : ℝ) : ℤ := if 0 ≤ x then ⌊x⌋ else ⌈x⌉

/-- The procedural ring pattern of the ground plane
(main.cpp lines 100-116): radial band parity XOR angular sector parity
selects pure black or pure white.  `static_cast<int>(floor(v)) % 2` used as
a C++ `bool` is truth-equivalent to oddness of `⌊v⌋` (for negative values
the C++ remainder is `-1`, still nonzero). -/
noncomputable def ring_pattern (hit : Vec3f) : Vec3f :=
  let diff := hit - (⟨0, -4, -18⟩ : Vec3f)
  let radius := norm diff
  let angle := atan2 diff.z diff.x
  let distance_pattern : Bool := decide (⌊radius / 1⌋ % 2 ≠ 0)
  let angle_pattern : Bool := decide (⌊angle / (Real.pi / 20)⌋ % 2 ≠ 0)
  if Bool.xor distance_pattern angle_pattern then ⟨0, 0, 0⟩ else ⟨1, 1, 1⟩

/-- The ground-plane branch of `scene_intersect` (main.cpp lines 91-118),
acting on the state left by the sphere loop.  Its `dist` field is
`checkerboard_dist`: the accepted plane distance, or `FLT_MAX` when the
plane test rejects. -/
noncomputable def plane_branch (orig dir : Vec3f) (acc : TraceState) : TraceState :=
  if 1e-3 < |dir.y| then
    let d := -(orig.y + 4) / dir.y
    let pt := orig + dir * d
    if 0 < d ∧ |pt.x| < 10 ∧ pt.z < -10 ∧ -30 < pt.z ∧ d < acc.dist then
      ⟨d, pt, ⟨0, 1, 0⟩, { acc.material with diffuse_color := ring_pattern pt }⟩
    else ⟨FLT_MAX, acc.hit, acc.normal, acc.material⟩
  else ⟨FLT_MAX, acc.hit, acc.normal, acc.material⟩

/-- The return value of `scene_intersect`: the C++ `bool` result together
with the final values of the `hit`, `N` and `material` out-parameters. -/
structure HitResult where
  found : Bool
  hit : Vec3f
  normal : Vec3f
  material : Material

/-- Function `scene_intersect` (main.cpp lines 79-120).  `hit0`, `N0`, `mat0` are
the values the caller's out-parameter variables hold on entry (they are
returned unchanged when no branch records a hit). -/
noncomputable def scene_intersect (orig dir : Vec3f) (spheres : List Sphere)
    (hit0 N0 : Vec3f) (mat0 : Material) : HitResult :=
  let a := sphere_fold orig dir spheres ⟨FLT_MAX, hit0, N0, mat0⟩
  let p := plane_branch orig dir a
  ⟨decide (min a.dist p.dist < 1000), p.hit, p.normal, p.material⟩

/-- The environment map: dimensions and row-major texel data. -/
structure EnvMap where
  width : ℕ
  height : ℕ
  data : List Vec3f

/-- Clamped azimuth texel column of the environment lookup
(main.cpp line 131). -/
noncomputable def env_a (w : ℕ) (dir : Vec3f) : ℤ :=
  max 0 (min ((w : ℤ) - 1) (cpp_to_int ((atan2 dir.z dir.x / (2 * Real.pi) + 0.5) * w)))

/-- Clamped elevation texel row of the environment lookup
(main.cpp line 132). -/
noncomputable def env_b (h : ℕ) (dir : Vec3f) : ℤ :=
  max 0 (min ((h : ℤ) - 1) (cpp_to_int (Real.arccos dir.y / Real.pi * h)))

/-- The flat index `a + b*envmap_width` of the environment lookup
(main.cpp line 133). -/
noncomputable def env_index (e : EnvMap) (dir : Vec3f) : ℤ :=
  env_a e.width dir + env_b e.height dir * e.width

/-- The environment-map sample returned on a miss or at maximal depth
(main.cpp lines 131-133). -/
noncomputable def env_sample (e : EnvMap) (dir : Vec3f) : Vec3f :=
  e.data.getD (env_index e dir).toNat ⟨0, 0, 0⟩

/-- The self-occlusion offset applied to secondary-ray origins
(main.cpp lines 139-141 and 150-151): step `1e-3` along the normal, on the
side of the surface the new direction points to. -/
noncomputable def offset_orig (newdir N point : Vec3f) : Vec3f :=
  if dot newdir N < 0 then point - N * (1e-3 : ℝ) else point + N * (1e-3 : ℝ)

/-- Direction from the shaded point to a light (main.cpp line 147). -/
noncomputable def light_dir (l : Light) (point : Vec3f) : Vec3f :=
  normalize (l.position - point)

/-- The shadow test of the light loop (main.cpp lines 150-156): the shadow
ray from the offset point toward the light finds an occluder strictly
nearer than the light. -/
noncomputable def in_shadow (spheres : List Sphere) (l : Light) (point N : Vec3f) : Prop :=
  let so := offset_orig (light_dir l point) N point
  let r := scene_intersect so (light_dir l point) spheres ⟨0, 0, 0⟩ ⟨0, 0, 0⟩ default_material
  r.found = true ∧ norm (r.hit - so) < norm (l.position - point)

noncomputable instance (spheres : List Sphere) (l : Light) (point N : Vec3f) :
    Decidable (in_shadow spheres l point N) := by
  unfold in_shadow; infer_instance

/-- One light's diffuse contribution (main.cpp line 158). -/
noncomputable def diffuse_term (l : Light) (point N : Vec3f) : ℝ :=
  l.intensity * max 0 (dot (light_dir l point) N)

/-- One light's specular contribution (main.cpp lines 159-160). -/
noncomputable def specular_term (l : Light) (point N dir : Vec3f) (material : Material) : ℝ :=
  Real.rpow (max 0 (dot (-(reflect (-(light_dir l point)) N)) dir)) material.specular_exponent *
    l.intensity

/-- One iteration of the light loop of `cast_ray`
(main.cpp lines 146-161): `continue` on a shadowed light, otherwise
accumulate the diffuse and specular terms. -/
noncomputable def light_step (spheres : List Sphere) (point N dir : Vec3f)
    (material : Material) (acc : ℝ × ℝ) (l : Light) : ℝ × ℝ :=
  if in_shadow spheres l point N then acc
  else (acc.1 + diffuse_term l point N, acc.2 + specular_term l point N dir material)

/-- The final color combination of `cast_ray` (main.cpp lines 162-164). -/
def phong_combine (material : Material) (dli sli : ℝ) (reflect_color refract_color : Vec3f) :
    Vec3f :=
  material.diffuse_color * dli * material.albedo.e0 +
    (⟨1, 1, 1⟩ : Vec3f) * sli * material.albedo.e1 +
    reflect_color * material.albedo.e2 +
    refract_color * material.albedo.e3

/-- Function `cast_ray` (main.cpp lines 123-165).  The recursion is on `depth`,
bounded by the `depth > 4` guard; Lean's termination measure is `5 - depth`. -/
noncomputable def cast_ray (e : EnvMap) (spheres : List Sphere) (lights : List Light)
    (orig dir : Vec3f) (depth : ℕ) : Vec3f :=
  let r := scene_intersect orig dir spheres ⟨0, 0, 0⟩ ⟨0, 0, 0⟩ default_material
  if h : 4 < depth ∨ r.found = false then env_sample e dir
  else
    let reflect_dir := normalize (reflect dir r.normal)
    let refract_dir := normalize (refract dir r.normal r.material.refractive_index)
    let reflect_orig := offset_orig reflect_dir r.normal r.hit
    let refract_orig := offset_orig refract_dir r.normal r.hit
    let reflect_color := cast_ray e spheres lights reflect_orig reflect_dir (depth + 1)
    let refract_color := cast_ray e spheres lights refract_orig refract_dir (depth + 1)
    let ls := lights.foldl (light_step spheres r.hit r.normal dir r.material) (0, 0)
    phong_combine r.material ls.1 ls.2 reflect_color refract_color
termination_by 5 - depth
decreasing_by
  all_goals
    have hd : depth ≤ 4 := by
      rcases Nat.lt_or_ge 4 depth with h4 | h4
      · exact absurd (Or.inl h4) h
      · exact h4
    omega

/-- The per-pixel maximum channel in the exposure pass of `render`
(main.cpp line 191), over `ℚ` (this stage uses only field/order
operations). -/
def max_channel (c : ℚ × ℚ × ℚ) : ℚ := max c.1 (max c.2.1 c.2.2)

/-- The per-pixel exposure correction of `render` (main.cpp line 192):
scale by the reciprocal of the maximum channel when it exceeds 1. -/
def expose (c : ℚ × ℚ × ℚ) : ℚ × ℚ × ℚ :=
  if 1 < max_channel c then
    (c.1 * (1 / max_channel c), c.2.1 * (1 / max_channel c), c.2.2 * (1 / max_channel c))
  else c

/-- Channel quantization of `render` (main.cpp line 194):
`(unsigned char)(255 * max(0, min(1, v)))`; the cast truncates, and the
operand is nonnegative, so it is a floor. -/
def quantize (v : ℚ) : ℤ := ⌊255 * max 0 (min 1 v)⌋

/-- The three bytes `render` emits for one pixel (main.cpp lines 189-195):
exposure correction, then clamp and quantize each channel. -/
def pixel_bytes (c : ℚ × ℚ × ℚ) : ℤ × ℤ × ℤ :=
  ((quantize (expose c).1), (quantize (expose c).2.1), (quantize (expose c).2.2))

/-! ## Theorems -/

theorem refract_core_eta_one (I N : Vec3f) (h : dot I N ≤ 0) : refract_core I N 1 1 = I := by
  have hm : max (-1 : ℝ) (min 1 (dot I N)) ≤ 0 :=
    max_le (by norm_num) (le_trans (min_le_right _ _) h)
  have hc0 : (0 : ℝ) ≤ -(max (-1 : ℝ) (min 1 (dot I N))) := by linarith
  simp only [refract_core]
  rw [if_neg]
  · rw [show (1 : ℝ) - 1 / 1 * (1 / 1) *
        (1 - -(max (-1 : ℝ) (min 1 (dot I N))) * -(max (-1 : ℝ) (min 1 (dot I N)))) =
        (-(max (-1 : ℝ) (min 1 (dot I N)))) ^ 2 by ring]
    rw [Real.sqrt_sq hc0]
    rw [Vec3f.ext_iff]
    refine ⟨?_, ?_, ?_⟩ <;> simp
  · rw [not_lt]
    have : (1 : ℝ) - 1 / 1 * (1 / 1) *
        (1 - -(max (-1 : ℝ) (min 1 (dot I N))) * -(max (-1 : ℝ) (min 1 (dot I N)))) =
        (-(max (-1 : ℝ) (min 1 (dot I N)))) ^ 2 := by ring
    rw [this]
    positivity

/-- C6: for an incoming direction entering the surface (`I · N ≤ 0`),
refraction with equal indices (`eta_t = eta_i = 1`) returns the incoming
direction unchanged. -/
theorem C6_refract_equal_indices (I N : Vec3f) (h : dot I N ≤ 0) : refract I N 1 1 = I := by
  have hm : max (-1 : ℝ) (min 1 (dot I N)) ≤ 0 :=
    max_le (by norm_num) (le_trans (min_le_right _ _) h)
  simp only [refract]
  rw [if_neg (by rw [not_lt]; linarith)]
  exact refract_core_eta_one I N h

theorem C6_refract_equal_indices_witness :
    dot (⟨0, 0, -1⟩ : Vec3f) (⟨0, 0, 1⟩ : Vec3f) ≤ 0 ∧
      refract (⟨0, 0, -1⟩ : Vec3f) (⟨0, 0, 1⟩ : Vec3f) 1 1 = (⟨0, 0, -1⟩ : Vec3f) :=
  ⟨by norm_num [Vec3f.dot],
   C6_refract_equal_indices ⟨0, 0, -1⟩ ⟨0, 0, 1⟩ (by norm_num [Vec3f.dot])⟩

/-- C7: under total internal reflection (negative Snell discriminant `k`),
`refract` does not fail: it returns the fixed vector `(1,0,0)`. -/
theorem C7_refract_tir (I N : Vec3f) (eta_t eta_i : ℝ) (h : dot I N ≤ 0)
    (hk : 1 - eta_i / eta_t * (eta_i / eta_t) *
        (1 - -(max (-1 : ℝ) (min 1 (dot I N))) * -(max (-1 : ℝ) (min 1 (dot I N)))) < 0) :
    refract I N eta_t eta_i = ⟨1, 0, 0⟩ := by
  have hm : max (-1 : ℝ) (min 1 (dot I N)) ≤ 0 :=
    max_le (by norm_num) (le_trans (min_le_right _ _) h)
  simp only [refract, refract_core]
  rw [if_neg (by rw [not_lt]; linarith)]
  rw [if_pos hk]

theorem C7_refract_tir_witness :
    dot (⟨0, 0, -1/10⟩ : Vec3f) (⟨0, 0, 1⟩ : Vec3f) ≤ 0 ∧
      refract (⟨0, 0, -1/10⟩ : Vec3f) (⟨0, 0, 1⟩ : Vec3f) (1/2) 1 = (⟨1, 0, 0⟩ : Vec3f) :=
  ⟨by norm_num [Vec3f.dot],
   C7_refract_tir ⟨0, 0, -1/10⟩ ⟨0, 0, 1⟩ (1/2) 1 (by norm_num [Vec3f.dot])
     (by norm_num [Vec3f.dot])⟩

/-- C4: when a pixel's maximum channel exceeds 1, the exposure pass scales
all three channels by its reciprocal (so the maximum becomes exactly 1 and
channel ratios are preserved), and each channel is then clamped to `[0,1]`
and quantized by multiplying by 255. -/
theorem C4_exposure_correction (c : ℚ × ℚ × ℚ) (h : 1 < max_channel c) :
    max_channel (expose c) = 1 ∧
      (expose c).1 * c.2.1 = (expose c).2.1 * c.1 ∧
      (expose c).1 * c.2.2 = (expose c).2.2 * c.1 ∧
      (expose c).2.1 * c.2.2 = (expose c).2.2 * c.2.1 ∧
      pixel_bytes c =
        (⌊255 * max 0 (min 1 (expose c).1)⌋, ⌊255 * max 0 (min 1 (expose c).2.1)⌋,
          ⌊255 * max 0 (min 1 (expose c).2.2)⌋) := by
  have hm : (0 : ℚ) < max_channel c := lt_trans one_pos h
  have he : expose c =
      (c.1 * (1 / max_channel c), c.2.1 * (1 / max_channel c),
        c.2.2 * (1 / max_channel c)) := by
    simp only [expose, if_pos h]
  have hmain : max_channel (expose c) = 1 := by
    rw [he]
    have hmc : max_channel c = max c.1 (max c.2.1 c.2.2) := rfl
    set k := 1 / max_channel c with hk
    have hk0 : 0 ≤ k := by rw [hk]; exact div_nonneg zero_le_one (le_of_lt hm)
    have h1 : max (c.2.1 * k) (c.2.2 * k) = max c.2.1 c.2.2 * k :=
      (max_mul_of_nonneg _ _ hk0).symm
    have h2 : max (c.1 * k) (max c.2.1 c.2.2 * k) = max c.1 (max c.2.1 c.2.2) * k :=
      (max_mul_of_nonneg _ _ hk0).symm
    simp only [max_channel]
    rw [h1, h2, ← hmc, hk, mul_one_div, div_self (ne_of_gt hm)]
  refine ⟨hmain, ?_, ?_, ?_, ?_⟩
  · rw [he]; ring
  · rw [he]; ring
  · rw [he]; ring
  · simp only [pixel_bytes, quantize]

theorem C4_exposure_correction_witness :
    1 < max_channel (2, 1, 1/2) ∧
      (max_channel (expose (2, 1, 1/2)) = 1 ∧
        (expose (2, 1, 1/2)).1 * (2, 1, 1/2).2.1 = (expose (2, 1, 1/2)).2.1 * (2, 1, 1/2).1 ∧
        (expose (2, 1, 1/2)).1 * (2, 1, 1/2).2.2 = (expose (2, 1, 1/2)).2.2 * (2, 1, 1/2).1 ∧
        (expose (2, 1, 1/2)).2.1 * (2, 1, 1/2).2.2 =
          (expose (2, 1, 1/2)).2.2 * (2, 1, 1/2).2.1 ∧
        pixel_bytes (2, 1, 1/2) =
          (⌊(255 : ℚ) * max 0 (min 1 (expose (2, 1, 1/2)).1)⌋,
            ⌊(255 : ℚ) * max 0 (min 1 (expose (2, 1, 1/2)).2.1)⌋,
            ⌊(255 : ℚ) * max 0 (min 1 (expose (2, 1, 1/2)).2.2)⌋)) :=
  ⟨by norm_num [max_channel, max_def],
   C4_exposure_correction (2, 1, 1/2) (by norm_num [max_channel, max_def])⟩

/-- C9: for a nonempty environment map, the clamped texture coordinates lie
in `[0, width-1] × [0, height-1]`, so the flat lookup index
`a + b * width` is within the bounds of the texel array. -/
theorem C9_env_index_in_bounds (e : EnvMap) (dir : Vec3f) (hw : 0 < e.width)
    (hh : 0 < e.height) (hlen : e.data.length = e.width * e.height) :
    0 ≤ env_a e.width dir ∧ env_a e.width dir ≤ (e.width : ℤ) - 1 ∧
      0 ≤ env_b e.height dir ∧ env_b e.height dir ≤ (e.height : ℤ) - 1 ∧
      0 ≤ env_index e dir ∧ env_index e dir < (e.width : ℤ) * e.height ∧
      (env_index e dir).toNat < e.data.length := by
  have hwz : (1 : ℤ) ≤ (e.width : ℤ) := by exact_mod_cast hw
  have hhz : (1 : ℤ) ≤ (e.height : ℤ) := by exact_mod_cast hh
  have ha1 : 0 ≤ env_a e.width dir := le_max_left _ _
  have ha2 : env_a e.width dir ≤ (e.width : ℤ) - 1 :=
    max_le (by linarith) (min_le_left _ _)
  have hb1 : 0 ≤ env_b e.height dir := le_max_left _ _
  have hb2 : env_b e.height dir ≤ (e.height : ℤ) - 1 :=
    max_le (by linarith) (min_le_left _ _)
  have hmul : env_b e.height dir * (e.width : ℤ) ≤ ((e.height : ℤ) - 1) * e.width :=
    mul_le_mul_of_nonneg_right hb2 (by linarith)
  have hi1 : 0 ≤ env_index e dir :=
    add_nonneg ha1 (mul_nonneg hb1 (by linarith))
  have hi2 : env_index e dir < (e.width : ℤ) * e.height := by
    have hexp : ((e.width : ℤ) - 1) + ((e.height : ℤ) - 1) * e.width =
        (e.width : ℤ) * e.height - 1 := by ring
    have : env_index e dir ≤ (e.width : ℤ) * e.height - 1 := by
      simp only [env_index]; linarith
    linarith
  refine ⟨ha1, ha2, hb1, hb2, hi1, hi2, ?_⟩
  rw [hlen]
  have : env_index e dir < ((e.width * e.height : ℕ) : ℤ) := by push_cast; linarith
  omega

theorem C9_env_index_in_bounds_witness :
    0 < (2 : ℕ) ∧ 0 < (3 : ℕ) ∧
      (0 ≤ env_a 2 ⟨0, 0, -1⟩ ∧ env_a 2 ⟨0, 0, -1⟩ ≤ (2 : ℤ) - 1 ∧
        0 ≤ env_b 3 ⟨0, 0, -1⟩ ∧ env_b 3 ⟨0, 0, -1⟩ ≤ (3 : ℤ) - 1 ∧
        0 ≤ env_index ⟨2, 3, List.replicate 6 ⟨0, 0, 0⟩⟩ ⟨0, 0, -1⟩ ∧
        env_index ⟨2, 3, List.replicate 6 ⟨0, 0, 0⟩⟩ ⟨0, 0, -1⟩ < (2 : ℤ) * 3 ∧
        (env_index ⟨2, 3, List.replicate 6 ⟨0, 0, 0⟩⟩ ⟨0, 0, -1⟩).toNat <
          (List.replicate 6 (⟨0, 0, 0⟩ : Vec3f)).length) :=
  ⟨by decide, by decide,
   C9_env_index_in_bounds ⟨2, 3, List.replicate 6 ⟨0, 0, 0⟩⟩ ⟨0, 0, -1⟩ (by decide)
     (by decide) (by simp)⟩

/-- C5: the ground-plane test accepts a hit exactly when `|dir.y| > 1e-3`,
the solved distance `d` is positive, the hit point lies in
`|x| < 10`, `-30 < z < -10`, and `d` is strictly below the nearest sphere
distance; on acceptance the pattern recolors the material's diffuse color
to pure black or pure white and nothing else. -/
theorem C5_plane_acceptance (orig dir : Vec3f) (acc : TraceState)
    (hacc : acc.dist ≤ FLT_MAX) :
    ((plane_branch orig dir acc).dist < FLT_MAX ↔
        ((1e-3 : ℝ) < |dir.y| ∧ 0 < -(orig.y + 4) / dir.y ∧
          |(orig + dir * (-(orig.y + 4) / dir.y)).x| < 10 ∧
          (orig + dir * (-(orig.y + 4) / dir.y)).z < -10 ∧
          -30 < (orig + dir * (-(orig.y + 4) / dir.y)).z ∧
          -(orig.y + 4) / dir.y < acc.dist)) ∧
      ((plane_branch orig dir acc).dist < FLT_MAX →
        (plane_branch orig dir acc).material.diffuse_color = ⟨0, 0, 0⟩ ∨
          (plane_branch orig dir acc).material.diffuse_color = ⟨1, 1, 1⟩) := by
  simp only [plane_branch]
  split_ifs with h1 h2
  · constructor
    · constructor
      · intro _; exact ⟨h1, h2.1, h2.2.1, h2.2.2.1, h2.2.2.2.1, h2.2.2.2.2⟩
      · intro _
        exact lt_of_lt_of_le h2.2.2.2.2 hacc
    · intro _
      simp only [ring_pattern]
      split_ifs
      · exact Or.inl rfl
      · exact Or.inr rfl
  · constructor
    · constructor
      · intro hlt; exact absurd rfl (ne_of_lt hlt)
      · intro hcond; exact absurd hcond.2 h2
    · intro hlt; exact absurd rfl (ne_of_lt hlt)
  · constructor
    · constructor
      · intro hlt; exact absurd rfl (ne_of_lt hlt)
      · intro hcond; exact absurd hcond.1 h1
    · intro hlt; exact absurd rfl (ne_of_lt hlt)

theorem C5_plane_acceptance_witness :
    (⟨100, ⟨0, 0, 0⟩, ⟨0, 0, 0⟩, default_material⟩ : TraceState).dist ≤ FLT_MAX ∧
      (((plane_branch ⟨0, 0, 0⟩ ⟨0, -1, -4⟩
            ⟨100, ⟨0, 0, 0⟩, ⟨0, 0, 0⟩, default_material⟩).dist < FLT_MAX ↔
          ((1e-3 : ℝ) < |(⟨0, -1, -4⟩ : Vec3f).y| ∧
            0 < -((⟨0, 0, 0⟩ : Vec3f).y + 4) / (⟨0, -1, -4⟩ : Vec3f).y ∧
            |((⟨0, 0, 0⟩ : Vec3f) + (⟨0, -1, -4⟩ : Vec3f) *
              (-((⟨0, 0, 0⟩ : Vec3f).y + 4) / (⟨0, -1, -4⟩ : Vec3f).y)).x| < 10 ∧
            ((⟨0, 0, 0⟩ : Vec3f) + (⟨0, -1, -4⟩ : Vec3f) *
              (-((⟨0, 0, 0⟩ : Vec3f).y + 4) / (⟨0, -1, -4⟩ : Vec3f).y)).z < -10 ∧
            -30 < ((⟨0, 0, 0⟩ : Vec3f) + (⟨0, -1, -4⟩ : Vec3f) *
              (-((⟨0, 0, 0⟩ : Vec3f).y + 4) / (⟨0, -1, -4⟩ : Vec3f).y)).z ∧
            -((⟨0, 0, 0⟩ : Vec3f).y + 4) / (⟨0, -1, -4⟩ : Vec3f).y <
              (⟨100, ⟨0, 0, 0⟩, ⟨0, 0, 0⟩, default_material⟩ : TraceState).dist)) ∧
        ((plane_branch ⟨0, 0, 0⟩ ⟨0, -1, -4⟩
            ⟨100, ⟨0, 0, 0⟩, ⟨0, 0, 0⟩, default_material⟩).dist < FLT_MAX →
          (plane_branch ⟨0, 0, 0⟩ ⟨0, -1, -4⟩
            ⟨100, ⟨0, 0, 0⟩, ⟨0, 0, 0⟩, default_material⟩).material.diffuse_color =
              ⟨0, 0, 0⟩ ∨
            (plane_branch ⟨0, 0, 0⟩ ⟨0, -1, -4⟩
              ⟨100, ⟨0, 0, 0⟩, ⟨0, 0, 0⟩, default_material⟩).material.diffuse_color =
              ⟨1, 1, 1⟩)) :=
  ⟨by norm_num [FLT_MAX],
   C5_plane_acceptance ⟨0, 0, 0⟩ ⟨0, -1, -4⟩ ⟨100, ⟨0, 0, 0⟩, ⟨0, 0, 0⟩, default_material⟩
     (by norm_num [FLT_MAX])⟩

theorem sphere_fold_no_hit (orig dir : Vec3f) (spheres : List Sphere)
    (hnone : ∀ s ∈ spheres, Sphere.ray_intersect s orig dir = none) :
    ∀ init, sphere_fold orig dir spheres init = init := by
  induction spheres with
  | nil => intro init; rfl
  | cons s rest ih =>
      intro init
      have hs : Sphere.ray_intersect s orig dir = none := hnone s (by simp)
      have hrest : ∀ s' ∈ rest, Sphere.ray_intersect s' orig dir = none := by
        intro s' hs'; exact hnone s' (by simp [hs'])
      simp only [sphere_fold, List.foldl_cons]
      rw [show sphere_step orig dir init s = init by simp only [sphere_step, hs]]
      exact ih hrest init

/-- C10: the ground-plane branch writes only the material's
`diffuse_color`; `refractive_index`, `albedo` and `specular_exponent` are
inherited from the state left by the sphere loop, and when no sphere
intersects the ray that state is the caller-supplied input unchanged. -/
theorem C10_plane_material_inherited (orig dir : Vec3f) (spheres : List Sphere)
    (acc init : TraceState) :
    ((plane_branch orig dir acc).material.refractive_index =
        acc.material.refractive_index ∧
      (plane_branch orig dir acc).material.albedo = acc.material.albedo ∧
      (plane_branch orig dir acc).material.specular_exponent =
        acc.material.specular_exponent) ∧
      ((∀ s ∈ spheres, Sphere.ray_intersect s orig dir = none) →
        sphere_fold orig dir spheres init = init) := by
  constructor
  · simp only [plane_branch]
    split_ifs <;> exact ⟨rfl, rfl, rfl⟩
  · intro hnone
    exact sphere_fold_no_hit orig dir spheres hnone init

theorem C10_plane_material_inherited_witness :
    sphere_fold ⟨0, 0, 0⟩ ⟨0, 0, -1⟩ []
        ⟨FLT_MAX, ⟨0, 0, 0⟩, ⟨0, 0, 0⟩, default_material⟩ =
      ⟨FLT_MAX, ⟨0, 0, 0⟩, ⟨0, 0, 0⟩, default_material⟩ :=
  (C10_plane_material_inherited ⟨0, 0, 0⟩ ⟨0, 0, -1⟩ [] ⟨0, ⟨0, 0, 0⟩, ⟨0, 0, 0⟩,
      default_material⟩ ⟨FLT_MAX, ⟨0, 0, 0⟩, ⟨0, 0, 0⟩, default_material⟩).2 (by simp)

theorem dot_ray_point (orig dir c : Vec3f) (t : ℝ) :
    dot ((orig + dir * t) - c) ((orig + dir * t) - c) =
      t * t * dot dir dir - 2 * t * dot (c - orig) dir + dot (c - orig) (c - orig) := by
  simp only [Vec3f.dot, Vec3f.add_x, Vec3f.add_y, Vec3f.add_z, Vec3f.sub_x, Vec3f.sub_y,
    Vec3f.sub_z, Vec3f.scale_x, Vec3f.scale_y, Vec3f.scale_z]
  ring

/-- C1 (amended): for a unit-direction ray with origin outside the sphere,
`ray_intersect` returns `none` when the squared perpendicular distance
exceeds the squared radius, and otherwise the two quadratic roots
`tca ± thc` share a sign: when the far root is negative (sphere behind the
ray) it still returns `none`, and when the far root is nonnegative it
returns the smaller root `tca - thc`, which is positive, at most the far
root, and both roots are genuine ray-sphere intersection parameters. -/
theorem C1_ray_intersect_characterization (s : Sphere) (orig dir : Vec3f)
    (hdir : dot dir dir = 1)
    (houtside : s.radius * s.radius <
      dot (s.center - orig) (s.center - orig)) :
    (s.radius * s.radius < dot (s.center - orig) (s.center - orig) -
        dot (s.center - orig) dir * dot (s.center - orig) dir →
      Sphere.ray_intersect s orig dir = none) ∧
    (dot (s.center - orig) (s.center - orig) -
        dot (s.center - orig) dir * dot (s.center - orig) dir ≤
        s.radius * s.radius →
      ((dot (s.center - orig) dir +
          Real.sqrt (s.radius * s.radius -
            (dot (s.center - orig) (s.center - orig) -
              dot (s.center - orig) dir * dot (s.center - orig) dir)) < 0 →
        Sphere.ray_intersect s orig dir = none) ∧
      (0 ≤ dot (s.center - orig) dir +
          Real.sqrt (s.radius * s.radius -
            (dot (s.center - orig) (s.center - orig) -
              dot (s.center - orig) dir * dot (s.center - orig) dir)) →
        Sphere.ray_intersect s orig dir =
            some (dot (s.center - orig) dir -
              Real.sqrt (s.radius * s.radius -
                (dot (s.center - orig) (s.center - orig) -
                  dot (s.center - orig) dir * dot (s.center - orig) dir))) ∧
          0 < dot (s.center - orig) dir -
              Real.sqrt (s.radius * s.radius -
                (dot (s.center - orig) (s.center - orig) -
                  dot (s.center - orig) dir * dot (s.center - orig) dir)) ∧
          (∀ t : ℝ,
            (t = dot (s.center - orig) dir -
                Real.sqrt (s.radius * s.radius -
                  (dot (s.center - orig) (s.center - orig) -
                    dot (s.center - orig) dir * dot (s.center - orig) dir)) ∨
             t = dot (s.center - orig) dir +
                Real.sqrt (s.radius * s.radius -
                  (dot (s.center - orig) (s.center - orig) -
                    dot (s.center - orig) dir * dot (s.center - orig) dir))) →
            dot ((orig + dir * t) - s.center) ((orig + dir * t) - s.center) =
              s.radius * s.radius)))) := by
  set L : Vec3f := s.center - orig with hL
  set tca : ℝ := dot L dir with htca
  set d2 : ℝ := dot L L - tca * tca with hd2
  constructor
  · intro hfar
    simp only [Sphere.ray_intersect, ← hL, ← htca, ← hd2]
    rw [if_pos hfar]
  · intro hnear
    set thc : ℝ := Real.sqrt (s.radius * s.radius - d2) with hthc
    have hthc0 : 0 ≤ thc := Real.sqrt_nonneg _
    have hthc2 : thc * thc = s.radius * s.radius - d2 := by
      rw [hthc]; exact Real.mul_self_sqrt (by linarith)
    rw [hd2] at hthc2
    have hprod : 0 < (tca - thc) * (tca + thc) := by
      have hgoal : (tca - thc) * (tca + thc) = dot L L - s.radius * s.radius := by
        linear_combination -hthc2
      rw [hgoal]; linarith
    constructor
    · intro hneg
      simp only [Sphere.ray_intersect, ← hL, ← htca, ← hd2, ← hthc]
      rw [if_neg (not_lt.mpr hnear)]
      have h0 : tca - thc < 0 := by linarith
      simp only [if_pos h0]
      rw [if_pos hneg]
    · intro hpos
      have ht1 : 0 < tca + thc := by
        rcases lt_or_eq_of_le hpos with h | h
        · exact h
        · exfalso; rw [← h] at hprod; simp at hprod
      have ht0 : 0 < tca - thc := by
        by_contra hc
        rw [not_lt] at hc
        nlinarith
      refine ⟨?_, ht0, ?_⟩
      · simp only [Sphere.ray_intersect, ← hL, ← htca, ← hd2, ← hthc]
        rw [if_neg (not_lt.mpr hnear)]
        simp only [if_neg (not_lt.mpr (le_of_lt ht0))]
      · intro t hroot
        have hexp := dot_ray_point orig dir s.center t
        rw [← hL] at hexp
        rw [hexp, hdir]
        rcases hroot with h | h <;> rw [h, ← htca] <;> linear_combination hthc2

theorem C1_ray_intersect_characterization_witness :
    dot (⟨0, 0, -1⟩ : Vec3f) (⟨0, 0, -1⟩ : Vec3f) = 1 ∧
      (1 : ℝ) * 1 < dot ((⟨0, 0, -5⟩ : Vec3f) - ⟨0, 0, 0⟩) ((⟨0, 0, -5⟩ : Vec3f) - ⟨0, 0, 0⟩) ∧
      ((1 : ℝ) * 1 < dot ((⟨0, 0, -5⟩ : Vec3f) - ⟨0, 0, 0⟩) ((⟨0, 0, -5⟩ : Vec3f) - ⟨0, 0, 0⟩) -
          dot ((⟨0, 0, -5⟩ : Vec3f) - ⟨0, 0, 0⟩) ⟨0, 0, -1⟩ *
            dot ((⟨0, 0, -5⟩ : Vec3f) - ⟨0, 0, 0⟩) ⟨0, 0, -1⟩ →
        Sphere.ray_intersect ⟨⟨0, 0, -5⟩, 1, default_material⟩ ⟨0, 0, 0⟩ ⟨0, 0, -1⟩ = none) :=
  ⟨by norm_num [Vec3f.dot], by norm_num [Vec3f.dot],
   ((C1_ray_intersect_characterization ⟨⟨0, 0, -5⟩, 1, default_material⟩ ⟨0, 0, 0⟩ ⟨0, 0, -1⟩
      (by norm_num [Vec3f.dot]) (by norm_num [Vec3f.dot]))).1⟩

/-- C1 counterexample: a unit ray from the origin pointing away from a
sphere that lies behind it.  The origin is outside the sphere and the
perpendicular distance from the center to the ray *line* is `0 ≤ radius`,
yet `ray_intersect` returns `none` (both roots are negative), refuting the
claim that it returns a hit whenever the perpendicular distance does not
exceed the radius. -/
theorem C1_ray_intersect_counterexample :
    dot (⟨0, 0, 1⟩ : Vec3f) (⟨0, 0, 1⟩ : Vec3f) = 1 ∧
      (1 : ℝ) * 1 < dot ((⟨0, 0, -5⟩ : Vec3f) - ⟨0, 0, 0⟩) ((⟨0, 0, -5⟩ : Vec3f) - ⟨0, 0, 0⟩) ∧
      dot ((⟨0, 0, -5⟩ : Vec3f) - ⟨0, 0, 0⟩) ((⟨0, 0, -5⟩ : Vec3f) - ⟨0, 0, 0⟩) -
          dot ((⟨0, 0, -5⟩ : Vec3f) - ⟨0, 0, 0⟩) ⟨0, 0, 1⟩ *
            dot ((⟨0, 0, -5⟩ : Vec3f) - ⟨0, 0, 0⟩) ⟨0, 0, 1⟩ ≤ (1 : ℝ) * 1 ∧
      Sphere.ray_intersect ⟨⟨0, 0, -5⟩, 1, default_material⟩ ⟨0, 0, 0⟩ ⟨0, 0, 1⟩ = none := by
  refine ⟨by norm_num [Vec3f.dot], by norm_num [Vec3f.dot], by norm_num [Vec3f.dot], ?_⟩
  simp only [Sphere.ray_intersect, Vec3f.dot, Vec3f.sub_x, Vec3f.sub_y, Vec3f.sub_z,
    Vec3f.mk_x, Vec3f.mk_y, Vec3f.mk_z]
  norm_num [Real.sqrt_one]

theorem light_fold_shift (spheres : List Sphere) (point N dir : Vec3f)
    (material : Material) (lights : List Light) :
    ∀ acc : ℝ × ℝ,
      lights.foldl (light_step spheres point N dir material) acc =
        (acc.1 + (lights.map fun l =>
            if in_shadow spheres l point N then 0 else diffuse_term l point N).sum,
         acc.2 + (lights.map fun l =>
            if in_shadow spheres l point N then 0
            else specular_term l point N dir material).sum) := by
  induction lights with
  | nil => intro acc; simp
  | cons l rest ih =>
      intro acc
      simp only [List.foldl_cons, List.map_cons, List.sum_cons]
      rw [ih (light_step spheres point N dir material acc l)]
      by_cases hs : in_shadow spheres l point N
      · rw [Prod.ext_iff]
        constructor <;> simp only [light_step, if_pos hs] <;> ring
      · rw [Prod.ext_iff]
        constructor <;> simp only [light_step, if_neg hs] <;> ring

/-- C3: the light loop of `cast_ray` accumulates, per light, nothing when
the shadow ray finds an occluder strictly nearer than the light, and
otherwise `intensity * max(0, light_dir · N)` into the diffuse sum and
`pow(max(0, -reflect(-light_dir, N) · dir), specular_exponent) * intensity`
into the specular sum. -/
theorem C3_light_contributions (spheres : List Sphere) (lights : List Light)
    (point N dir : Vec3f) (material : Material) :
    lights.foldl (light_step spheres point N dir material) (0, 0) =
      ((lights.map fun l =>
          if in_shadow spheres l point N then 0
          else l.intensity * max 0 (dot (light_dir l point) N)).sum,
       (lights.map fun l =>
          if in_shadow spheres l point N then 0
          else Real.rpow (max 0 (dot (-(reflect (-(light_dir l point)) N)) dir))
              material.specular_exponent * l.intensity).sum) := by
  rw [light_fold_shift spheres point N dir material lights (0, 0)]
  rw [Prod.ext_iff]
  constructor <;> simp [diffuse_term, specular_term]

/-- C2: `cast_ray` terminates.  At depth 5 or more, or when the scene
resolver reports a miss, it returns the environment-map sample for the ray
direction without recursing; below depth 5 on a hit it makes exactly two
recursive calls (reflection and refraction), both at `depth + 1`.  (The
function is total: Lean accepts it with the decreasing measure
`5 - depth`.) -/
theorem C2_cast_ray_bounded_recursion (e : EnvMap) (spheres : List Sphere)
    (lights : List Light) (orig dir : Vec3f) (depth : ℕ) :
    ((4 < depth ∨
        (scene_intersect orig dir spheres ⟨0, 0, 0⟩ ⟨0, 0, 0⟩ default_material).found = false) →
      cast_ray e spheres lights orig dir depth = env_sample e dir) ∧
    (depth ≤ 4 →
      (scene_intersect orig dir spheres ⟨0, 0, 0⟩ ⟨0, 0, 0⟩ default_material).found = true →
      cast_ray e spheres lights orig dir depth =
        phong_combine
          (scene_intersect orig dir spheres ⟨0, 0, 0⟩ ⟨0, 0, 0⟩ default_material).material
          (lights.foldl
            (light_step spheres
              (scene_intersect orig dir spheres ⟨0, 0, 0⟩ ⟨0, 0, 0⟩ default_material).hit
              (scene_intersect orig dir spheres ⟨0, 0, 0⟩ ⟨0, 0, 0⟩ default_material).normal
              dir
              (scene_intersect orig dir spheres ⟨0, 0, 0⟩ ⟨0, 0, 0⟩ default_material).material)
            (0, 0)).1
          (lights.foldl
            (light_step spheres
              (scene_intersect orig dir spheres ⟨0, 0, 0⟩ ⟨0, 0, 0⟩ default_material).hit
              (scene_intersect orig dir spheres ⟨0, 0, 0⟩ ⟨0, 0, 0⟩ default_material).normal
              dir
              (scene_intersect orig dir spheres ⟨0, 0, 0⟩ ⟨0, 0, 0⟩ default_material).material)
            (0, 0)).2
          (cast_ray e spheres lights
            (offset_orig
              (normalize (reflect dir
                (scene_intersect orig dir spheres ⟨0, 0, 0⟩ ⟨0, 0, 0⟩ default_material).normal))
              (scene_intersect orig dir spheres ⟨0, 0, 0⟩ ⟨0, 0, 0⟩ default_material).normal
              (scene_intersect orig dir spheres ⟨0, 0, 0⟩ ⟨0, 0, 0⟩ default_material).hit)
            (normalize (reflect dir
              (scene_intersect orig dir spheres ⟨0, 0, 0⟩ ⟨0, 0, 0⟩ default_material).normal))
            (depth + 1))
          (cast_ray e spheres lights
            (offset_orig
              (normalize (refract dir
                (scene_intersect orig dir spheres ⟨0, 0, 0⟩ ⟨0, 0, 0⟩ default_material).normal
                (scene_intersect orig dir spheres ⟨0, 0, 0⟩ ⟨0, 0, 0⟩
                  default_material).material.refractive_index))
              (scene_intersect orig dir spheres ⟨0, 0, 0⟩ ⟨0, 0, 0⟩ default_material).normal
              (scene_intersect orig dir spheres ⟨0, 0, 0⟩ ⟨0, 0, 0⟩ default_material).hit)
            (normalize (refract dir
              (scene_intersect orig dir spheres ⟨0, 0, 0⟩ ⟨0, 0, 0⟩ default_material).normal
              (scene_intersect orig dir spheres ⟨0, 0, 0⟩ ⟨0, 0, 0⟩
                default_material).material.refractive_index))
            (depth + 1))) := by
  constructor
  · intro h
    rw [cast_ray]
    exact dif_pos h
  · intro h4 hfound
    have hnot : ¬(4 < depth ∨
        (scene_intersect orig dir spheres ⟨0, 0, 0⟩ ⟨0, 0, 0⟩ default_material).found = false) := by
      rintro (hd | hf)
      · omega
      · rw [hfound] at hf; exact absurd hf (by simp)
    rw [cast_ray]
    rw [dif_neg hnot]

theorem C2_cast_ray_bounded_recursion_witness :
    cast_ray ⟨1, 1, [⟨1/2, 1/2, 1/2⟩]⟩ [] [] ⟨0, 0, 0⟩ ⟨0, 0, -1⟩ 5 =
      env_sample ⟨1, 1, [⟨1/2, 1/2, 1/2⟩]⟩ ⟨0, 0, -1⟩ :=
  (C2_cast_ray_bounded_recursion ⟨1, 1, [⟨1/2, 1/2, 1/2⟩]⟩ [] [] ⟨0, 0, 0⟩ ⟨0, 0, -1⟩ 5).1
    (Or.inl (by norm_num))

theorem foldl_min_le (l : List ℝ) : ∀ d : ℝ, l.foldl min d ≤ d := by
  induction l with
  | nil => intro d; exact le_refl d
  | cons x rest ih => intro d; exact le_trans (ih (min d x)) (min_le_left d x)

theorem sphere_step_dist (orig dir : Vec3f) (init : TraceState) (s : Sphere) (t : ℝ)
    (hr : Sphere.ray_intersect s orig dir = some t) :
    (sphere_step orig dir init s).dist = min init.dist t := by
  simp only [sphere_step, hr]
  split_ifs with hlt
  · exact (min_eq_right (le_of_lt hlt)).symm
  · exact (min_eq_left (not_lt.mp hlt)).symm

theorem sphere_fold_dist (orig dir : Vec3f) (spheres : List Sphere) :
    ∀ init : TraceState,
      (sphere_fold orig dir spheres init).dist =
        ((spheres.filterMap fun s => Sphere.ray_intersect s orig dir).foldl min init.dist) := by
  induction spheres with
  | nil => intro init; rfl
  | cons s rest ih =>
      intro init
      have hunfold : sphere_fold orig dir (s :: rest) init =
          sphere_fold orig dir rest (sphere_step orig dir init s) := rfl
      rw [hunfold]
      cases hr : Sphere.ray_intersect s orig dir with
      | none =>
          rw [show sphere_step orig dir init s = init from by simp only [sphere_step, hr]]
          simp only [List.filterMap_cons, hr]
          exact ih init
      | some t =>
          simp only [List.filterMap_cons, hr, List.foldl_cons]
          rw [ih (sphere_step orig dir init s), sphere_step_dist orig dir init s t hr]

theorem sphere_fold_state (orig dir : Vec3f) (spheres : List Sphere) :
    ∀ init : TraceState,
      sphere_fold orig dir spheres init = init ∨
        ∃ s ∈ spheres,
          Sphere.ray_intersect s orig dir = some (sphere_fold orig dir spheres init).dist ∧
            (sphere_fold orig dir spheres init).hit =
              orig + dir * (sphere_fold orig dir spheres init).dist ∧
            (sphere_fold orig dir spheres init).normal =
              normalize ((sphere_fold orig dir spheres init).hit - s.center) ∧
            (sphere_fold orig dir spheres init).material = s.material := by
  induction spheres with
  | nil => intro init; left; rfl
  | cons s rest ih =>
      intro init
      have hunfold : sphere_fold orig dir (s :: rest) init =
          sphere_fold orig dir rest (sphere_step orig dir init s) := rfl
      rw [hunfold]
      rcases ih (sphere_step orig dir init s) with heq | ⟨s', hs', h1, h2, h3, h4⟩
      · rw [heq]
        cases hr : Sphere.ray_intersect s orig dir with
        | none => left; simp only [sphere_step, hr]
        | some t =>
            by_cases hlt : t < init.dist
            · right
              refine ⟨s, List.mem_cons_self s rest, ?_, ?_, ?_, ?_⟩ <;>
                simp only [sphere_step, hr, if_pos hlt]
            · left
              simp only [sphere_step, hr, if_neg hlt]
      · right
        exact ⟨s', List.mem_cons_of_mem s hs', h1, h2, h3, h4⟩

theorem ray_intersect_on_sphere (s : Sphere) (orig dir : Vec3f) (t : ℝ)
    (hdir : dot dir dir = 1) (ht : Sphere.ray_intersect s orig dir = some t) :
    dot ((orig + dir * t) - s.center) ((orig + dir * t) - s.center) =
      s.radius * s.radius := by
  set L : Vec3f := s.center - orig with hL
  set tca : ℝ := dot L dir with htca
  set d2 : ℝ := dot L L - tca * tca with hd2
  set thc : ℝ := Real.sqrt (s.radius * s.radius - d2) with hthc
  simp only [Sphere.ray_intersect, ← hL, ← htca, ← hd2, ← hthc] at ht
  by_cases hfar : s.radius * s.radius < d2
  · rw [if_pos hfar] at ht; exact absurd ht (by simp)
  · rw [if_neg hfar] at ht
    push_neg at hfar
    have hthc2 : thc * thc = s.radius * s.radius - d2 := by
      rw [hthc]; exact Real.mul_self_sqrt (by linarith)
    rw [hd2] at hthc2
    have hexp := dot_ray_point orig dir s.center t
    rw [← hL] at hexp
    rw [hexp, hdir]
    have hcases : t = tca - thc ∨ t = tca + thc := by
      by_cases h0 : tca - thc < 0
      · simp only [if_pos h0] at ht
        by_cases h1 : tca + thc < 0
        · rw [if_pos h1] at ht; exact absurd ht (by simp)
        · rw [if_neg h1] at ht
          right; exact (Option.some_injective ℝ ht).symm
      · simp only [if_neg h0] at ht
        left; exact (Option.some_injective ℝ ht).symm
    rcases hcases with h | h <;> rw [h, ← htca] <;> linear_combination hthc2

theorem dot_normalize_self (v : Vec3f) (h : 0 < dot v v) :
    dot (normalize v) (normalize v) = 1 := by
  have hscale : dot (v * (1 / norm v)) (v * (1 / norm v)) =
      (1 / norm v) * (1 / norm v) * dot v v := by
    simp only [Vec3f.dot, Vec3f.scale_x, Vec3f.scale_y, Vec3f.scale_z]; ring
  have hpos : 0 < norm v := Real.sqrt_pos.mpr h
  have hnorm : norm v * norm v = dot v v := Real.mul_self_sqrt (le_of_lt h)
  simp only [Vec3f.normalize]
  rw [hscale]
  have hrw : (1 / norm v) * (1 / norm v) * dot v v = dot v v / (norm v * norm v) := by
    ring
  rw [hrw, hnorm, div_self (ne_of_gt h)]

theorem plane_branch_cases (orig dir : Vec3f) (acc : TraceState) :
    ((plane_branch orig dir acc).dist = FLT_MAX ∧
        (plane_branch orig dir acc).hit = acc.hit ∧
        (plane_branch orig dir acc).normal = acc.normal ∧
        (plane_branch orig dir acc).material = acc.material) ∨
      ((plane_branch orig dir acc).dist < acc.dist ∧
        (plane_branch orig dir acc).hit =
          orig + dir * (plane_branch orig dir acc).dist ∧
        (plane_branch orig dir acc).normal = ⟨0, 1, 0⟩ ∧
        (plane_branch orig dir acc).material =
          { acc.material with
              diffuse_color := ring_pattern (plane_branch orig dir acc).hit }) := by
  simp only [plane_branch]
  split_ifs with h1 h2
  · right
    exact ⟨h2.2.2.2.2, rfl, rfl, rfl⟩
  · left; exact ⟨rfl, rfl, rfl, rfl⟩
  · left; exact ⟨rfl, rfl, rfl, rfl⟩

/-- C8: `scene_intersect` returns `true` exactly when the minimum of the
nearest sphere distance and the plane distance is under 1000; on a hit the
out-parameters describe that nearest hit: the hit point lies at the
minimal distance along the ray, the normal is unit, and either the plane
was nearest (up normal, sphere-state material recolored by the pattern) or
some sphere was nearest (its intersection distance, outward normal and
material). -/
theorem C8_scene_intersect_contract (orig dir : Vec3f) (spheres : List Sphere)
    (hit0 N0 : Vec3f) (mat0 : Material)
    (hdir : dot dir dir = 1) (hrad : ∀ s ∈ spheres, 0 < s.radius) :
    ((scene_intersect orig dir spheres hit0 N0 mat0).found = true ↔
        min ((spheres.filterMap fun s => Sphere.ray_intersect s orig dir).foldl min FLT_MAX)
          (plane_branch orig dir
            (sphere_fold orig dir spheres ⟨FLT_MAX, hit0, N0, mat0⟩)).dist < 1000) ∧
      ((scene_intersect orig dir spheres hit0 N0 mat0).found = true →
        dot (scene_intersect orig dir spheres hit0 N0 mat0).normal
            (scene_intersect orig dir spheres hit0 N0 mat0).normal = 1 ∧
          (scene_intersect orig dir spheres hit0 N0 mat0).hit =
            orig + dir *
              min (sphere_fold orig dir spheres ⟨FLT_MAX, hit0, N0, mat0⟩).dist
                (plane_branch orig dir
                  (sphere_fold orig dir spheres ⟨FLT_MAX, hit0, N0, mat0⟩)).dist ∧
          (((plane_branch orig dir
                (sphere_fold orig dir spheres ⟨FLT_MAX, hit0, N0, mat0⟩)).dist < FLT_MAX ∧
              (scene_intersect orig dir spheres hit0 N0 mat0).normal = ⟨0, 1, 0⟩ ∧
              (scene_intersect orig dir spheres hit0 N0 mat0).material =
                { (sphere_fold orig dir spheres ⟨FLT_MAX, hit0, N0, mat0⟩).material with
                    diffuse_color :=
                      ring_pattern (scene_intersect orig dir spheres hit0 N0 mat0).hit }) ∨
            (∃ s ∈ spheres,
              Sphere.ray_intersect s orig dir =
                  some (sphere_fold orig dir spheres ⟨FLT_MAX, hit0, N0, mat0⟩).dist ∧
                (scene_intersect orig dir spheres hit0 N0 mat0).normal =
                  normalize ((scene_intersect orig dir spheres hit0 N0 mat0).hit - s.center) ∧
                (scene_intersect orig dir spheres hit0 N0 mat0).material = s.material))) := by
  set A : TraceState := sphere_fold orig dir spheres ⟨FLT_MAX, hit0, N0, mat0⟩ with hA
  set P : TraceState := plane_branch orig dir A with hP
  have hfound : (scene_intersect orig dir spheres hit0 N0 mat0).found =
      decide (min A.dist P.dist < 1000) := rfl
  have hhit : (scene_intersect orig dir spheres hit0 N0 mat0).hit = P.hit := rfl
  have hnormal : (scene_intersect orig dir spheres hit0 N0 mat0).normal = P.normal := rfl
  have hmat : (scene_intersect orig dir spheres hit0 N0 mat0).material = P.material := rfl
  have hfd : A.dist =
      (spheres.filterMap fun s => Sphere.ray_intersect s orig dir).foldl min FLT_MAX := by
    have h := sphere_fold_dist orig dir spheres ⟨FLT_MAX, hit0, N0, mat0⟩
    rw [← hA] at h
    exact h
  have hAdist_le : A.dist ≤ FLT_MAX := by
    rw [hfd]; exact foldl_min_le _ _
  constructor
  · rw [hfound]
    simp only [decide_eq_true_eq]
    rw [hfd]
  · intro hf
    have hlt : min A.dist P.dist < 1000 := by
      rw [hfound] at hf
      simpa using hf
    rcases plane_branch_cases orig dir A with ⟨hd, hh, hn, hm⟩ | ⟨hd, hh, hn, hm⟩ <;>
      rw [← hP] at hd hh hn hm
    · -- plane rejected: the nearest sphere hit is reported
      have hmin : min A.dist P.dist = A.dist := by rw [hd]; exact min_eq_left hAdist_le
      have hAlt : A.dist < 1000 := by rw [hmin] at hlt; exact hlt
      have hAne : A.dist < FLT_MAX := lt_of_lt_of_le hAlt (by norm_num [FLT_MAX])
      rcases sphere_fold_state orig dir spheres ⟨FLT_MAX, hit0, N0, mat0⟩ with
        heq | ⟨s, hs, h1, h2, h3, h4⟩
      · exfalso
        rw [← hA] at heq
        have hAd : A.dist = FLT_MAX := by rw [heq]
        rw [hAd] at hAne
        exact lt_irrefl _ hAne
      · rw [← hA] at h1 h2 h3 h4
        have hon : dot (A.hit - s.center) (A.hit - s.center) = s.radius * s.radius := by
          have h := ray_intersect_on_sphere s orig dir A.dist hdir h1
          rw [← h2] at h
          exact h
        refine ⟨?_, ?_, Or.inr ⟨s, hs, h1, ?_, ?_⟩⟩
        · rw [hnormal, hn, h3]
          exact dot_normalize_self _ (by rw [hon]; exact mul_pos (hrad s hs) (hrad s hs))
        · rw [hhit, hh, hmin, h2]
        · rw [hnormal, hn, h3, hhit, hh]
        · rw [hmat, hm, h4]
    · -- plane accepted
      have hmin : min A.dist P.dist = P.dist := min_eq_right (le_of_lt hd)
      have hPlt : P.dist < FLT_MAX := lt_of_lt_of_le hd hAdist_le
      refine ⟨?_, ?_, Or.inl ⟨hPlt, ?_, ?_⟩⟩
      · rw [hnormal, hn]
        norm_num [Vec3f.dot]
      · rw [hhit, hh, hmin]
      · rw [hnormal, hn]
      · rw [hmat, hm, hhit]

theorem C8_scene_intersect_contract_witness :
    dot (⟨0, 0, -1⟩ : Vec3f) (⟨0, 0, -1⟩ : Vec3f) = 1 ∧
      (((scene_intersect ⟨0, 0, 0⟩ ⟨0, 0, -1⟩ [] ⟨0, 0, 0⟩ ⟨0, 0, 0⟩
            default_material).found = true ↔
          min (((([] : List Sphere)).filterMap fun s =>
              Sphere.ray_intersect s ⟨0, 0, 0⟩ ⟨0, 0, -1⟩).foldl min FLT_MAX)
            (plane_branch ⟨0, 0, 0⟩ ⟨0, 0, -1⟩
              (sphere_fold ⟨0, 0, 0⟩ ⟨0, 0, -1⟩ []
                ⟨FLT_MAX, ⟨0, 0, 0⟩, ⟨0, 0, 0⟩, default_material⟩)).dist < 1000) ∧
        ((scene_intersect ⟨0, 0, 0⟩ ⟨0, 0, -1⟩ [] ⟨0, 0, 0⟩ ⟨0, 0, 0⟩
            default_material).found = true →
          dot (scene_intersect ⟨0, 0, 0⟩ ⟨0, 0, -1⟩ [] ⟨0, 0, 0⟩ ⟨0, 0, 0⟩
                default_material).normal
              (scene_intersect ⟨0, 0, 0⟩ ⟨0, 0, -1⟩ [] ⟨0, 0, 0⟩ ⟨0, 0, 0⟩
                default_material).normal = 1 ∧
            (scene_intersect ⟨0, 0, 0⟩ ⟨0, 0, -1⟩ [] ⟨0, 0, 0⟩ ⟨0, 0, 0⟩
                default_material).hit =
              (⟨0, 0, 0⟩ : Vec3f) + (⟨0, 0, -1⟩ : Vec3f) *
                min (sphere_fold ⟨0, 0, 0⟩ ⟨0, 0, -1⟩ []
                    ⟨FLT_MAX, ⟨0, 0, 0⟩, ⟨0, 0, 0⟩, default_material⟩).dist
                  (plane_branch ⟨0, 0, 0⟩ ⟨0, 0, -1⟩
                    (sphere_fold ⟨0, 0, 0⟩ ⟨0, 0, -1⟩ []
                      ⟨FLT_MAX, ⟨0, 0, 0⟩, ⟨0, 0, 0⟩, default_material⟩)).dist ∧
            (((plane_branch ⟨0, 0, 0⟩ ⟨0, 0, -1⟩
                  (sphere_fold ⟨0, 0, 0⟩ ⟨0, 0, -1⟩ []
                    ⟨FLT_MAX, ⟨0, 0, 0⟩, ⟨0, 0, 0⟩, default_material⟩)).dist < FLT_MAX ∧
                (scene_intersect ⟨0, 0, 0⟩ ⟨0, 0, -1⟩ [] ⟨0, 0, 0⟩ ⟨0, 0, 0⟩
                    default_material).normal = ⟨0, 1, 0⟩ ∧
                (scene_intersect ⟨0, 0, 0⟩ ⟨0, 0, -1⟩ [] ⟨0, 0, 0⟩ ⟨0, 0, 0⟩
                    default_material).material =
                  { (sphere_fold ⟨0, 0, 0⟩ ⟨0, 0, -1⟩ []
                        ⟨FLT_MAX, ⟨0, 0, 0⟩, ⟨0, 0, 0⟩, default_material⟩).material with
                      diffuse_color :=
                        ring_pattern (scene_intersect ⟨0, 0, 0⟩ ⟨0, 0, -1⟩ []
                          ⟨0, 0, 0⟩ ⟨0, 0, 0⟩ default_material).hit }) ∨
              (∃ s ∈ ([] : List Sphere),
                Sphere.ray_intersect s ⟨0, 0, 0⟩ ⟨0, 0, -1⟩ =
                    some (sphere_fold ⟨0, 0, 0⟩ ⟨0, 0, -1⟩ []
                      ⟨FLT_MAX, ⟨0, 0, 0⟩, ⟨0, 0, 0⟩, default_material⟩).dist ∧
                  (scene_intersect ⟨0, 0, 0⟩ ⟨0, 0, -1⟩ [] ⟨0, 0, 0⟩ ⟨0, 0, 0⟩
                      default_material).normal =
                    normalize ((scene_intersect ⟨0, 0, 0⟩ ⟨0, 0, -1⟩ [] ⟨0, 0, 0⟩
                      ⟨0, 0, 0⟩ default_material).hit - s.center) ∧
                  (scene_intersect ⟨0, 0, 0⟩ ⟨0, 0, -1⟩ [] ⟨0, 0, 0⟩ ⟨0, 0, 0⟩
                      default_material).material = s.material)))) :=
  ⟨by norm_num [Vec3f.dot],
   C8_scene_intersect_contract ⟨0, 0, 0⟩ ⟨0, 0, -1⟩ [] ⟨0, 0, 0⟩ ⟨0, 0, 0⟩ default_material
     (by norm_num [Vec3f.dot]) (by intro s hs; simp at hs)⟩

end Snowman
